import Mathlib

/-!
Verification of syslog_webhook_to_kafka: key-path extraction and
per-destination routing.

A shallow embedding of `common/kafka.go`, `common/webhook.go`, `common/config.go`
and `main.go`.

Modelling conventions.

* A Go `string` and a Go `[]byte` payload are a Lean `String`. The only bytes the
  code inspects (`\`, `.`, `:`, `{`, `[`) are ASCII, which never occur inside a
  multi-byte UTF-8 sequence, so scanning by code point and scanning by byte
  produce the same segments on UTF-8 text; `len(s)` is `String.utf8ByteSize`.
* A Go `map[string]interface{}` is an association list read by first match;
  `m[k] = v` conses a new binding in front.
* Functions of external libraries (`sonic`, `net/url`, `strconv.FormatFloat`,
  the Kafka client) are fields of `Lib` or explicit parameters.
-/

namespace common

/-! ## `StringToList` (kafka.go 20-41) -/

/-- The `for i := 0; i < len(checkKey); i++` loop of `StringToList`. `i` is the
index, `res` the slice of closed segments, `sb` the contents of the
`strings.Builder`. Every iteration advances `i`, so `fuel = len(checkKey)`
iterations are enough. -/
def StringToList.loop (checkKey : List Char) :
    Nat → Nat → List String → List Char → List String × List Char
  | 0, _, res, sb => (res, sb)
  | fuel + 1, i, res, sb =>
    if i < checkKey.length then
      if checkKey[i]? = some '\\' ∧ i + 1 < checkKey.length ∧ checkKey[i + 1]? = some '.' then
        -- sb.WriteByte('.'); i++
        StringToList.loop checkKey fuel (i + 2) res (sb ++ ['.'])
      else if checkKey[i]? = some '.' then
        -- res = append(res, sb.String()); sb.Reset()
        StringToList.loop checkKey fuel (i + 1) (res ++ [String.mk sb]) []
      else
        -- sb.WriteByte(checkKey[i])
        StringToList.loop checkKey fuel (i + 1) res (sb ++ (checkKey[i]?).toList)
    else (res, sb)

/-- The tail of `StringToList` after the loop: `if sb.Len() > 0` the buffer is
appended as the last segment. -/
def finishScan (r : List String × List Char) : List String :=
  if r.2.length > 0 then r.1 ++ [String.mk r.2] else r.1

/-- Translation of `StringToList`: a `nil` slice and an empty slice are both `[]`. -/
def StringToList (checkKey : String) : List String :=
  if checkKey.length = 0 then []
  else finishScan (StringToList.loop checkKey.toList checkKey.length 0 [] [])

/-- Reference scan, written from the specification of the PathSpec parser:
left to right with a segment buffer `buf`; backslash-dot puts a literal dot in
the buffer, an unescaped dot closes the buffer (also when empty), any other
character is appended, and the buffer left at the end is emitted only when it
is non-empty. -/
def scanSegments : List Char → List Char → List String
  | [], buf => if buf = [] then [] else [String.mk buf]
  | '\\' :: '.' :: rest, buf => scanSegments rest (buf ++ ['.'])
  | '.' :: rest, buf => String.mk buf :: scanSegments rest []
  | c :: rest, buf => scanSegments rest (buf ++ [c])

/-! ## Values held in an `interface{}` -/

/-- A Go `float64`, kept as its IEEE-754 bit pattern; it is only ever passed to
`strconv.FormatFloat`. -/
structure Float64 where
  bits : Nat

/-- The dynamic values that `AnyToString` and `GetCheckData` distinguish. -/
inductive Value where
  | null
  | str (s : String)
  | int (n : Int)
  | bool (b : Bool)
  | float64 (f : Float64)
  | int64 (n : Int)
  | list (l : List Value)
  | map (m : List (String × Value))

/-- A `map[string]interface{}`. -/
abbrev GoMap := List (String × Value)

/-- The comparison `tmpRes == nil`. -/
def Value.isNil : Value → Bool
  | Value.null => true
  | _ => false

/-- The map read `tmp[k]`: `none` when the key is absent (`ok = false`). -/
def mapGet : GoMap → String → Option Value
  | [], _ => none
  | (k', v) :: m, k => if k' = k then some v else mapGet m k

/-- The Go call `strconv.Itoa` (also `strconv.FormatInt(v, 10)`). -/
def Itoa : Int → String
  | Int.ofNat n => Nat.repr n
  | Int.negSucc n => "-" ++ Nat.repr (n + 1)

/-- The value of a decimal digit character (used to read back `Itoa`). -/
def digitVal (c : Char) : Nat := c.toNat - 48

/-- The number a list of decimal digit characters denotes. -/
def decodeDigits (cs : List Char) : Nat := cs.foldl (fun a c => 10 * a + digitVal c) 0

/-- The external library functions the code calls. An `error` is its message. -/
structure Lib where
  /-- The call `sonic.Unmarshal(b, &m)` with `m` a `map[string]interface{}`. -/
  UnmarshalMap : String → Except String GoMap
  /-- The call `sonic.Unmarshal(b, &v)` with `v` an `interface{}`. -/
  UnmarshalAny : String → Except String Value
  /-- The call `sonic.Marshal(v)`, its error dropped. -/
  Marshal : Value → String
  /-- The call `url.ParseQuery(s)`. -/
  ParseQuery : String → Except String (List (String × List String))
  /-- The call `strconv.FormatFloat(v, 'f', -1, 64)`. -/
  FormatFloat : Float64 → String

/-! ## `UrlValueToMap`, `AnyToString`, `GetCheckData` (kafka.go 43-130) -/

/-- Translation of `UrlValueToMap`: every key is bound to `strings.Join(v, "")`. -/
def UrlValueToMap (data : List (String × List String)) : GoMap :=
  data.map (fun kv => (kv.1, Value.str (String.join kv.2)))

/-- Translation of `AnyToString`. -/
def AnyToString (lib : Lib) : Value → String
  | Value.str value => value
  | Value.int value => Itoa value
  | Value.bool value => if value then "true" else "false"
  | Value.float64 value => lib.FormatFloat value
  | Value.int64 value => Itoa value
  | tmp => lib.Marshal tmp

/-- The key `tmpKey := "#_" + strconv.Itoa(idx)` of kafka.go 96. -/
def indexKey (idx : Nat) : String := "#_" ++ Itoa (Int.ofNat idx)

/-- The slice case of `GetCheckData` (kafka.go 94-98): `tmpMapForList`, where
`tmpMapForList[tmpKey] = v` for every index of the slice. -/
def sliceToMap (value : List Value) : GoMap :=
  value.enum.foldl (fun m iv => (indexKey iv.1, iv.2) :: m) []

/-- The guard of kafka.go 102: the string contains `:`, an opening brace or an
opening bracket, and `len(value) > 2`. -/
def looksLikeJSON (value : String) : Bool :=
  (value.toList.contains ':' || value.toList.contains '\x7b' || value.toList.contains '[')
    && decide (value.utf8ByteSize > 2)

/-- The `for i, k := range checkKeyList` loop of `GetCheckData`, with the loop
variables `i`, `tmp`, `res`, `exist`; the remaining keys are the first argument. -/
def GetCheckData.loop (lib : Lib) (keyListLen : Int) :
    List String → Nat → GoMap → String → Bool → String × Bool
  | [], _, _, res, exist => if res = "" then ("", exist) else (res, exist)
  | k :: ks, i, tmp, res, exist =>
    match mapGet tmp k with
    | none => ("", false)
    | some tmpRes =>
      if tmpRes.isNil then ("", false)
      else if Int.ofNat i ≠ keyListLen then
        match tmpRes with
        | Value.map value => GetCheckData.loop lib keyListLen ks (i + 1) value res exist
        | Value.list value =>
          GetCheckData.loop lib keyListLen ks (i + 1) (sliceToMap value) res exist
        | Value.str value =>
          match (if looksLikeJSON value then (lib.UnmarshalMap value).toOption else none) with
          | some tmpValue => GetCheckData.loop lib keyListLen ks (i + 1) tmpValue res exist
          | none =>
            match lib.ParseQuery value with
            | Except.ok tmpValue =>
              GetCheckData.loop lib keyListLen ks (i + 1) (UrlValueToMap tmpValue) res exist
            | Except.error _ => ("", false)
        | _ => ("", false)
      else GetCheckData.loop lib keyListLen ks (i + 1) tmp (AnyToString lib tmpRes) true

/-- Translation of `GetCheckData`. -/
def GetCheckData (lib : Lib) (data : GoMap) (checkKeyList : List String) : String × Bool :=
  GetCheckData.loop lib (Int.ofNat checkKeyList.length - 1) checkKeyList 0 data "" false

/-! ## `KafkaProducer` (kafka.go 13-18, 132-178) -/

/-- A `kgo.Record`; a `nil` key is `none`. -/
structure Record where
  Topic : String
  Key : Option String
  Value : String
deriving DecidableEq

/-- The Kafka client as far as the code uses it: `ProduceSync(nil, r).FirstErr()`. -/
abbrev Client := Record → Option String

/-- The struct `KafkaProducer`. -/
structure KafkaProducer where
  client : Client
  topic : String
  keyField : List String
  keyFlag : Bool

/-- Translation of `NewKafkaProducer`; `newClient` is `kgo.NewClient`. -/
def NewKafkaProducer (newClient : List String → Except String Client)
    (brokers : List String) (topic : String) (keyField : List String) :
    Except String KafkaProducer :=
  match newClient brokers with
  | Except.error err => Except.error ("failed to create Kafka client: " ++ err)
  | Except.ok client =>
    let kp : KafkaProducer := ⟨client, topic, [], false⟩
    if keyField.length > 0 then Except.ok ⟨kp.client, kp.topic, keyField, true⟩
    else Except.ok kp

/-- The first half of `SendMessage` (kafka.go 154-165): the key, or the error
that ends the call. -/
def SendMessage.key (lib : Lib) (p : KafkaProducer) (msg : String) :
    Except String (Option String) :=
  if p.keyFlag then
    match lib.UnmarshalMap msg with
    | Except.error err => Except.error ("failed to parse message for key: " ++ err)
    | Except.ok data =>
      let r := GetCheckData lib data p.keyField
      if r.2 then Except.ok (some r.1) else Except.ok none
  else Except.ok none

/-- Translation of `SendMessage`. `sent` lists the records handed to the
client so far; the result is the returned error (`none` for `nil`) and the
updated list. -/
def SendMessage (lib : Lib) (p : KafkaProducer) (msg : String) (sent : List Record) :
    Option String × List Record :=
  match SendMessage.key lib p msg with
  | Except.error err => (some err, sent)
  | Except.ok key =>
    let record : Record := ⟨p.topic, key, msg⟩
    match p.client record with
    | some err => (some ("failed to produce message: " ++ err), sent ++ [record])
    | none => (none, sent ++ [record])

/-! ## `handleWebhook` (webhook.go 57-83) -/

/-- Translation of `handleWebhook`: the HTTP status and the channel contents
after the request. `body` is the result of `io.ReadAll`. The channel is a FIFO
list; blocking on a full channel is outside the model. -/
def handleWebhook (lib : Lib) (method : String) (body : Except String String)
    (msgChan : List String) : Nat × List String :=
  if method ≠ "POST" then (405, msgChan)
  else
    match body with
    | Except.error _ => (400, msgChan)
    | Except.ok b =>
      match lib.UnmarshalAny b with
      | Except.error _ => (400, msgChan)
      | Except.ok _ => (200, msgChan ++ [b])

/-! ## A concrete instance of the libraries for the worked examples -/

/-- The libraries restricted to the finitely many inputs that the worked
examples use: the decoders answer as `sonic` and `net/url` do on the listed
texts (on `null` the decode into a map succeeds and leaves the map nil, which
reads as the empty map) and report an error on every other text, `FormatFloat` renders the listed
`float64` values (10, 20, 30, 42, 1, 2); `Marshal` is not exercised. -/
def exampleLib : Lib where
  UnmarshalMap := fun b =>
    if b = "\x7b\"user\":\x7b\"id\":42\x7d\x7d" then
      Except.ok [("user", Value.map [("id", Value.float64 ⟨0x4045000000000000⟩)])]
    else if b = "\x7b\"id\":42\x7d" then
      Except.ok [("id", Value.float64 ⟨0x4045000000000000⟩)]
    else if b = "\x7b\"id\":\"\"\x7d" then
      Except.ok [("id", Value.str "")]
    else if b = "\x7b\"a\":1\x7d" then
      Except.ok [("a", Value.float64 ⟨0x3FF0000000000000⟩)]
    else if b = "null" then Except.ok []
    else Except.error "value is not a JSON object"
  UnmarshalAny := fun b =>
    if b = "[1,2]" then
      Except.ok (Value.list [Value.float64 ⟨0x3FF0000000000000⟩, Value.float64 ⟨0x4000000000000000⟩])
    else if b = "\x7b\"id\":42\x7d" then
      Except.ok (Value.map [("id", Value.float64 ⟨0x4045000000000000⟩)])
    else if b = "null" then Except.ok Value.null
    else Except.error "invalid JSON"
  Marshal := fun _ => "null"
  ParseQuery := fun q =>
    if q = "a=1&b=2" then Except.ok [("a", ["1"]), ("b", ["2"])]
    else if q = "a=1&a=2" then Except.ok [("a", ["1", "2"])]
    else if q = "\x7bbad" then Except.ok [("\x7bbad", [""])]
    else Except.error "invalid query"
  FormatFloat := fun f =>
    if f.bits = 0x4024000000000000 then "10"
    else if f.bits = 0x4034000000000000 then "20"
    else if f.bits = 0x403E000000000000 then "30"
    else if f.bits = 0x4045000000000000 then "42"
    else if f.bits = 0x3FF0000000000000 then "1"
    else if f.bits = 0x4000000000000000 then "2"
    else ""

/-- A producer with the key path `["id"]` whose client accepts every record. -/
def exampleProducer : KafkaProducer := ⟨fun _ => none, "events", ["id"], true⟩

/-! ## `Config.Validate` (config.go 11-50, 72-156) -/

/-- The struct `WebhookTLSConfig`. -/
structure WebhookTLSConfig where
  Enabled : Bool
  CertFile : String
  KeyFile : String

/-- The struct `SyslogServerConfig`. -/
structure SyslogServerConfig where
  Listen : String
  Format : String
  Protocol : String
  KafkaID : String

/-- The struct `WebhookConfig`. -/
structure WebhookConfig where
  Listen : String
  Path : String
  TLS : WebhookTLSConfig
  KafkaID : String

/-- The anonymous struct behind `KafkaConfig.Key`; `Type_` is its field `Type`. -/
structure KafkaKey where
  Field : String
  Type_ : String

/-- The struct `KafkaConfig` of package `common`; a `nil` key is `none`. -/
structure KafkaConfig where
  ID : String
  Brokers : List String
  Topic : String
  Key : Option KafkaKey

/-- The struct `Config` of package `common`. -/
structure Config where
  Kafka : List KafkaConfig
  Syslog : List SyslogServerConfig
  Webhook : List WebhookConfig

/-- The call `strings.HasPrefix(s, p)`. -/
def HasPrefix (s p : String) : Bool := p.toList.isPrefixOf s.toList

/-- The loop `for i, k := range c.Kafka` (config.go 77-87), from index `i` on. -/
def Config.Validate.kafka : Nat → List KafkaConfig → Option String
  | _, [] => none
  | i, k :: ks =>
    if k.ID = "" then some ("kafka[" ++ Itoa (Int.ofNat i) ++ "]: id is required")
    else if k.Brokers.length = 0 then
      some ("kafka[" ++ Itoa (Int.ofNat i) ++ "]: at least one broker is required")
    else if k.Topic = "" then some ("kafka[" ++ Itoa (Int.ofNat i) ++ "]: topic is required")
    else Config.Validate.kafka (i + 1) ks

/-- The inner loop that computes `found` (config.go 107-113, 134-140). -/
def Config.Validate.found (kafkaID : String) : List KafkaConfig → Bool
  | [] => false
  | k :: ks => if k.ID = kafkaID then true else Config.Validate.found kafkaID ks

/-- The loop `for i, s := range c.Syslog` (config.go 93-117), from index `i` on. -/
def Config.Validate.syslog (kafka : List KafkaConfig) :
    Nat → List SyslogServerConfig → Option String
  | _, [] => none
  | i, s :: ss =>
    if s.Listen = "" then
      some ("syslog[" ++ Itoa (Int.ofNat i) ++ "]: listen address is required")
    else if s.Format = "" then some ("syslog[" ++ Itoa (Int.ofNat i) ++ "]: format is required")
    else if s.Protocol = "" then
      some ("syslog[" ++ Itoa (Int.ofNat i) ++ "]: protocol is required")
    else if s.KafkaID = "" then
      some ("syslog[" ++ Itoa (Int.ofNat i) ++ "]: kafka_id is required")
    else if !Config.Validate.found s.KafkaID kafka then
      some ("syslog[" ++ Itoa (Int.ofNat i) ++ "]: kafka_id '" ++ s.KafkaID
        ++ "' not found in kafka configurations")
    else Config.Validate.syslog kafka (i + 1) ss

/-- The loop `for i, w := range c.Webhook` (config.go 123-153), from index `i` on. -/
def Config.Validate.webhook (kafka : List KafkaConfig) :
    Nat → List WebhookConfig → Option String
  | _, [] => none
  | i, w :: ws =>
    if w.Listen = "" then
      some ("webhook[" ++ Itoa (Int.ofNat i) ++ "]: listen address is required")
    else if w.Path = "" then some ("webhook[" ++ Itoa (Int.ofNat i) ++ "]: path is required")
    else if w.KafkaID = "" then
      some ("webhook[" ++ Itoa (Int.ofNat i) ++ "]: kafka_id is required")
    else if !Config.Validate.found w.KafkaID kafka then
      some ("webhook[" ++ Itoa (Int.ofNat i) ++ "]: kafka_id '" ++ w.KafkaID
        ++ "' not found in kafka configurations")
    else if HasPrefix w.Listen "https://" && !w.TLS.Enabled then
      some ("webhook[" ++ Itoa (Int.ofNat i) ++ "]: TLS must be enabled for HTTPS")
    else if HasPrefix w.Listen "https://" && (w.TLS.CertFile = "" || w.TLS.KeyFile = "") then
      some ("webhook[" ++ Itoa (Int.ofNat i)
        ++ "]: both cert_file and key_file are required for HTTPS")
    else Config.Validate.webhook kafka (i + 1) ws

/-- Translation of `Config.Validate`: `none` is the `nil` error. -/
def Config.Validate (c : Config) : Option String :=
  if c.Kafka.length = 0 then some "kafka configuration is required"
  else
    match Config.Validate.kafka 0 c.Kafka with
    | some err => some err
    | none =>
      if c.Syslog.length = 0 then some "syslog configuration is required"
      else
        match Config.Validate.syslog c.Kafka 0 c.Syslog with
        | some err => some err
        | none =>
          if c.Webhook.length = 0 then some "webhook configuration is required"
          else Config.Validate.webhook c.Kafka 0 c.Webhook

/-! ## `SyslogConfig.Run` (syslog.go 102-117) -/

/-- The copy loop `for k, v := range logParts { data[k] = v }` of syslog.go
106-108: afterwards a key of `logParts` reads as in `logParts`, any other key
as in `data` before the loop. -/
def mergeLogParts (logParts data : GoMap) : GoMap :=
  logParts.foldr (fun kv m => (kv.1, kv.2) :: m) data

/-- The state of the goroutine started by `Run`: the map `data`, the payloads
sent on `s.msgChan` in order, and the lines printed. -/
structure RunState where
  data : GoMap
  msgChan : List String
  stdout : List String

/-- The loop `for logParts := range channel` of `Run` on the records the inner
channel delivers; `marshal` is `sonic.Marshal` on a map. -/
def SyslogConfig.Run.loop (marshal : GoMap → Except String String) :
    List GoMap → RunState → RunState
  | [], st => st
  | logParts :: channel, st =>
    let data := mergeLogParts logParts st.data
    match marshal data with
    | Except.error err =>
      SyslogConfig.Run.loop marshal channel
        ⟨data, st.msgChan, st.stdout ++ ["syslog marshal json err:  " ++ err ++ "\n"]⟩
    | Except.ok dataBytes =>
      SyslogConfig.Run.loop marshal channel ⟨data, st.msgChan ++ [dataBytes], st.stdout⟩

/-- Translation of `SyslogConfig.Run`: `data` is made once, before the loop. -/
def SyslogConfig.Run (marshal : GoMap → Except String String) (channel : List GoMap)
    (msgChan : List String) : RunState :=
  SyslogConfig.Run.loop marshal channel ⟨[], msgChan, []⟩

/-- The fields of `exampleMarshal` for the keys listed. -/
def exampleMarshal.render (m : GoMap) : List String → Except String (List String)
  | [] => Except.ok []
  | k :: ks =>
    match mapGet m k with
    | some (Value.int n) =>
      match exampleMarshal.render m ks with
      | Except.ok fs => Except.ok (("\"" ++ k ++ "\":" ++ Itoa n) :: fs)
      | Except.error err => Except.error err
    | _ => Except.error "unsupported value"

/-- A JSON rendering of maps with integer values for the worked examples: one
field per key, in the order of first binding; other values are an error. -/
def exampleMarshal (m : GoMap) : Except String String :=
  match exampleMarshal.render m (m.map Prod.fst).eraseDups with
  | Except.ok fs => Except.ok ("\x7b" ++ ",".intercalate fs ++ "\x7d")
  | Except.error err => Except.error err

/-- A configuration with one destination, one syslog and one webhook listener. -/
def exampleConfig : Config where
  Kafka := [⟨"a", ["broker1:9092"], "t1", none⟩]
  Syslog := [⟨"0.0.0.0:514", "RFC3164", "udp", "a"⟩]
  Webhook := [⟨"http://0.0.0.0:8080", "/hook", ⟨false, "", ""⟩, "a"⟩]

end common

/-! ## Package `main` (main.go) -/

namespace main

open common (Itoa HasPrefix StringToList NewKafkaProducer KafkaProducer Client Lib Record
  SendMessage)

/-- The struct `KafkaConfig` of package `main`. -/
structure KafkaConfig where
  ID : String
  Brokers : List String
  Topic : String
  Key : String

/-- The struct `SyslogServerConfig`. -/
structure SyslogServerConfig where
  Listen : String
  Format : String
  Protocol : String
  KafkaID : String

/-- The struct `WebhookTLSConfig`. -/
structure WebhookTLSConfig where
  Enabled : Bool
  CertFile : String
  KeyFile : String

/-- The struct `WebhookConfig`. -/
structure WebhookConfig where
  Listen : String
  Path : String
  TLS : WebhookTLSConfig
  KafkaID : String

/-- The struct `Config` of package `main`. -/
structure Config where
  Kafka : List KafkaConfig
  Syslog : List SyslogServerConfig
  Webhook : List WebhookConfig

/-- The loop `for i, k := range config.Kafka` (main.go 58-68), from index `i` on. -/
def validateConfig.kafka : Nat → List KafkaConfig → Option String
  | _, [] => none
  | i, k :: ks =>
    if k.ID = "" then some ("kafka[" ++ Itoa (Int.ofNat i) ++ "]: id is required")
    else if k.Brokers.length = 0 then
      some ("kafka[" ++ Itoa (Int.ofNat i) ++ "]: at least one broker is required")
    else if k.Topic = "" then some ("kafka[" ++ Itoa (Int.ofNat i) ++ "]: topic is required")
    else validateConfig.kafka (i + 1) ks

/-- The inner loop that computes `found` (main.go 91-97, 118-124). -/
def validateConfig.found (kafkaID : String) : List KafkaConfig → Bool
  | [] => false
  | k :: ks => if k.ID = kafkaID then true else validateConfig.found kafkaID ks

/-- The loop `for i, s := range config.Syslog` (main.go 74-101), from index `i` on. -/
def validateConfig.syslog (kafka : List KafkaConfig) :
    Nat → List SyslogServerConfig → Option String
  | _, [] => none
  | i, s :: ss =>
    if s.Listen = "" then
      some ("syslog[" ++ Itoa (Int.ofNat i) ++ "]: listen address is required")
    else if s.Format = "" then some ("syslog[" ++ Itoa (Int.ofNat i) ++ "]: format is required")
    else if s.Protocol = "" then
      some ("syslog[" ++ Itoa (Int.ofNat i) ++ "]: protocol is required")
    else if s.KafkaID = "" then
      some ("syslog[" ++ Itoa (Int.ofNat i) ++ "]: kafka_id is required")
    else if !validateConfig.found s.KafkaID kafka then
      some ("syslog[" ++ Itoa (Int.ofNat i) ++ "]: kafka_id '" ++ s.KafkaID
        ++ "' not found in kafka configurations")
    else validateConfig.syslog kafka (i + 1) ss

/-- The loop `for i, w := range config.Webhook` (main.go 107-137), from index `i` on. -/
def validateConfig.webhook (kafka : List KafkaConfig) :
    Nat → List WebhookConfig → Option String
  | _, [] => none
  | i, w :: ws =>
    if w.Listen = "" then
      some ("webhook[" ++ Itoa (Int.ofNat i) ++ "]: listen address is required")
    else if w.Path = "" then some ("webhook[" ++ Itoa (Int.ofNat i) ++ "]: path is required")
    else if w.KafkaID = "" then
      some ("webhook[" ++ Itoa (Int.ofNat i) ++ "]: kafka_id is required")
    else if !validateConfig.found w.KafkaID kafka then
      some ("webhook[" ++ Itoa (Int.ofNat i) ++ "]: kafka_id '" ++ w.KafkaID
        ++ "' not found in kafka configurations")
    else if HasPrefix w.Listen "https://" && !w.TLS.Enabled then
      some ("webhook[" ++ Itoa (Int.ofNat i) ++ "]: TLS must be enabled for HTTPS")
    else if HasPrefix w.Listen "https://" && (w.TLS.CertFile = "" || w.TLS.KeyFile = "") then
      some ("webhook[" ++ Itoa (Int.ofNat i)
        ++ "]: both cert_file and key_file are required for HTTPS")
    else validateConfig.webhook kafka (i + 1) ws

/-- Translation of `validateConfig`: `none` is the `nil` error. -/
def validateConfig (config : Config) : Option String :=
  if config.Kafka.length = 0 then some "kafka configuration is required"
  else
    match validateConfig.kafka 0 config.Kafka with
    | some err => some err
    | none =>
      if config.Syslog.length = 0 then some "syslog configuration is required"
      else
        match validateConfig.syslog config.Kafka 0 config.Syslog with
        | some err => some err
        | none =>
          if config.Webhook.length = 0 then some "webhook configuration is required"
          else validateConfig.webhook config.Kafka 0 config.Webhook

/-- A channel made by `make(chan []byte, 100)`, named by the number of channels
made before it. -/
abbrev Chan := Nat

/-- The loop of main.go 165-167: `msgChans[kc.ID] = make(chan []byte, 100)`.
`next` counts the channels already made; a later binding of the same id
shadows the earlier one. -/
def makeChans : List KafkaConfig → Nat → List (String × Chan) → List (String × Chan)
  | [], _, msgChans => msgChans
  | kc :: ks, next, msgChans => makeChans ks (next + 1) ((kc.ID, next) :: msgChans)

/-- A consumer goroutine started at main.go 186-193, with the arguments
`kafkaID` and `msgChan` it was started with (`none` is a nil channel). -/
structure Consumer where
  kafkaID : String
  msgChan : Option Chan
deriving DecidableEq

/-- The loop of main.go 171-194: one producer and one consumer goroutine per
entry of `config.Kafka`. An error stands for the `os.Exit(1)` path. -/
def startProducers (newClient : List String → Except String Client)
    (msgChans : List (String × Chan)) :
    List KafkaConfig → List (String × KafkaProducer) × List Consumer →
      Except String (List (String × KafkaProducer) × List Consumer)
  | [], st => Except.ok st
  | kc :: ks, st =>
    let keyField : List String := if kc.Key ≠ "" then StringToList kc.Key else []
    match NewKafkaProducer newClient kc.Brokers kc.Topic keyField with
    | Except.error err => Except.error ("Error creating Kafka producer: " ++ err)
    | Except.ok producer =>
      startProducers newClient msgChans ks
        ((kc.ID, producer) :: st.1, st.2 ++ [⟨kc.ID, msgChans.lookup kc.ID⟩])

/-- What the destination setup of `main` (main.go 163-194) leaves behind. -/
structure Destinations where
  msgChans : List (String × Chan)
  kafkaProducers : List (String × KafkaProducer)
  consumers : List Consumer

/-- The destination setup of `main` (main.go 163-194). -/
def destinationSetup (newClient : List String → Except String Client) (config : Config) :
    Except String Destinations :=
  let msgChans := makeChans config.Kafka 0 []
  match startProducers newClient msgChans config.Kafka ([], []) with
  | Except.error err => Except.error err
  | Except.ok st => Except.ok ⟨msgChans, st.1, st.2⟩

/-- The state a consumer goroutine acts on: `calls` is a ghost trace of the
arguments of its `SendMessage` calls, `sent` the records handed to the client,
`stdout` the lines printed. -/
structure ConsumerState where
  calls : List String
  sent : List Record
  stdout : List String

/-- The body of the consumer goroutine (main.go 188-192) run on the payloads
`msgChan` delivers, in channel order; `p` is `kafkaProducers[kafkaID]`. -/
def consumer (lib : Lib) (p : KafkaProducer) (kafkaID : String) :
    List String → ConsumerState → ConsumerState
  | [], st => st
  | msg :: msgChan, st =>
    match SendMessage lib p msg st.sent with
    | (some err, sent) =>
      consumer lib p kafkaID msgChan
        ⟨st.calls ++ [msg], sent,
          st.stdout ++ ["Error sending message to Kafka " ++ kafkaID ++ ": " ++ err ++ "\n"]⟩
    | (none, sent) => consumer lib p kafkaID msgChan ⟨st.calls ++ [msg], sent, st.stdout⟩

/-- A configuration with one destination, one syslog and one webhook listener. -/
def exampleConfig : Config where
  Kafka := [⟨"a", ["broker1:9092"], "t1", "user.id"⟩]
  Syslog := [⟨"0.0.0.0:514", "RFC3164", "udp", "a"⟩]
  Webhook := [⟨"http://0.0.0.0:8080", "/hook", ⟨false, "", ""⟩, "a"⟩]

/-- A configuration with two Kafka entries that carry the same id. -/
def duplicateIdConfig : Config where
  Kafka := [⟨"a", ["broker1:9092"], "t1", ""⟩, ⟨"a", ["broker2:9092"], "t2", ""⟩]
  Syslog := [⟨"0.0.0.0:514", "RFC3164", "udp", "a"⟩]
  Webhook := [⟨"http://0.0.0.0:8080", "/hook", ⟨false, "", ""⟩, "a"⟩]

end main


open common

/-! ## Decimal rendering is injective -/

theorem digitVal_digitChar (d : Nat) (h : d < 10) : digitVal (Nat.digitChar d) = d := by
  interval_cases d <;> rfl

theorem toDigitsCore_append (fuel : Nat) : ∀ (n : Nat) (ds : List Char),
    Nat.toDigitsCore 10 fuel n ds = Nat.toDigitsCore 10 fuel n [] ++ ds := by
  induction fuel with
  | zero => intro n ds; simp [Nat.toDigitsCore]
  | succ fuel ih =>
    intro n ds
    simp only [Nat.toDigitsCore]
    by_cases h : n / 10 = 0
    · simp [h]
    · simp only [h, if_false]
      rw [ih (n / 10) (Nat.digitChar (n % 10) :: ds), ih (n / 10) [Nat.digitChar (n % 10)]]
      simp

theorem decodeDigits_snoc (xs : List Char) (c : Char) :
    decodeDigits (xs ++ [c]) = 10 * decodeDigits xs + digitVal c := by
  simp [decodeDigits, List.foldl_append]

theorem decode_toDigitsCore (fuel : Nat) : ∀ n : Nat, n < fuel →
    decodeDigits (Nat.toDigitsCore 10 fuel n []) = n := by
  induction fuel with
  | zero => intro n h; omega
  | succ fuel ih =>
    intro n h
    simp only [Nat.toDigitsCore]
    have hd := digitVal_digitChar (n % 10) (Nat.mod_lt _ (by decide))
    by_cases h0 : n / 10 = 0
    · simp only [h0, if_true]
      have : decodeDigits [Nat.digitChar (n % 10)] = digitVal (Nat.digitChar (n % 10)) := by
        simp [decodeDigits]
      rw [this, hd]; omega
    · simp only [h0, if_false]
      rw [toDigitsCore_append, decodeDigits_snoc, hd, ih (n / 10) (by omega)]
      omega

theorem Nat_repr_injective (m n : Nat) (h : Nat.repr m = Nat.repr n) : m = n := by
  have h1 : Nat.toDigits 10 m = Nat.toDigits 10 n := by
    have := congrArg String.data h
    simpa [Nat.repr, List.asString] using this
  have h2 := congrArg decodeDigits h1
  simp only [Nat.toDigits] at h2
  rw [decode_toDigitsCore _ _ (Nat.lt_succ_self m),
    decode_toDigitsCore _ _ (Nat.lt_succ_self n)] at h2
  exact h2

theorem indexKey_injective (i j : Nat) (h : indexKey i = indexKey j) : i = j := by
  unfold indexKey Itoa at h
  have h1 := congrArg String.data h
  simp only [String.data_append] at h1
  have h2 := List.append_cancel_left h1
  exact Nat_repr_injective i j (String.ext h2)

/-! ## Reading the map built from a slice -/

theorem mapGet_fold_index (l : List Value) : ∀ (n : Nat) (acc : GoMap) (i : Nat),
    mapGet ((l.enumFrom n).foldl
        (fun m iv => (indexKey iv.1, iv.2) :: m) acc) (indexKey i)
      = if n ≤ i ∧ i < n + l.length then l[i - n]? else mapGet acc (indexKey i) := by
  induction l with
  | nil =>
    intro n acc i
    have h : ¬ (n ≤ i ∧ i < n + ([] : List Value).length) := by
      simp only [List.length_nil]; omega
    rw [if_neg h]; rfl
  | cons v l ih =>
    intro n acc i
    simp only [List.enumFrom_cons, List.foldl_cons, List.length_cons]
    rw [ih (n + 1)]
    by_cases h1 : n + 1 ≤ i ∧ i < n + 1 + l.length
    · have h2 : n ≤ i ∧ i < n + (l.length + 1) := by omega
      rw [if_pos h1, if_pos h2]
      have h3 : i - n = (i - (n + 1)) + 1 := by omega
      rw [h3, List.getElem?_cons_succ]
    · rw [if_neg h1]
      by_cases h2 : i = n
      · subst h2
        have h4 : i ≤ i ∧ i < i + (l.length + 1) := by omega
        rw [if_pos h4]
        simp [mapGet]
      · have h4 : ¬ (n ≤ i ∧ i < n + (l.length + 1)) := by omega
        rw [if_neg h4]
        have hk : ¬ (indexKey n = indexKey i) := by
          intro hc
          exact h2 (indexKey_injective n i hc).symm
        simp only [mapGet, if_neg hk]

theorem mapGet_sliceToMap (l : List Value) (i : Nat) :
    mapGet (sliceToMap l) (indexKey i) = l[i]? := by
  unfold sliceToMap List.enum
  rw [mapGet_fold_index l 0 [] i]
  by_cases h : i < l.length
  · simp [h]
  · have h2 : ¬ (0 ≤ i ∧ i < 0 + l.length) := by omega
    rw [if_neg h2, List.getElem?_eq_none (by omega)]
    rfl

theorem mapGet_UrlValueToMap (q : List (String × List String)) (key : String) :
    mapGet (UrlValueToMap q) key =
      (q.lookup key).map (fun vs => Value.str (String.join vs)) := by
  induction q with
  | nil => rfl
  | cons kv q ih =>
    obtain ⟨k', vs⟩ := kv
    by_cases h : k' = key
    · subst h
      simp [UrlValueToMap, mapGet, List.lookup]
    · have h2 : (key == k') = false := by
        simp only [beq_eq_false_iff_ne, ne_eq]
        exact fun e => h e.symm
      simp only [UrlValueToMap, List.map_cons, mapGet, if_neg h, List.lookup, h2]
      exact ih

theorem scan_nil (buf : List Char) :
    scanSegments [] buf = if buf = [] then [] else [String.mk buf] := by
  simp [scanSegments]

theorem scan_esc (rest buf : List Char) :
    scanSegments ('\\' :: '.' :: rest) buf = scanSegments rest (buf ++ ['.']) := by
  simp [scanSegments]

theorem scan_dot (rest buf : List Char) :
    scanSegments ('.' :: rest) buf = String.mk buf :: scanSegments rest [] := by
  simp [scanSegments]

theorem scan_other (c : Char) (rest buf : List Char) (hdot : c ≠ '.')
    (hesc : ¬ (c = '\\' ∧ rest.head? = some '.')) :
    scanSegments (c :: rest) buf = scanSegments rest (buf ++ [c]) := by
  conv_lhs => unfold scanSegments
  split
  · simp_all
  · simp_all
  · simp_all
  · simp_all

theorem loop_eq_scan (cs : List Char) :
    ∀ (fuel i : Nat) (res : List String) (sb : List Char), cs.length - i ≤ fuel →
      finishScan (StringToList.loop cs fuel i res sb) = res ++ scanSegments (cs.drop i) sb := by
  intro fuel
  induction fuel with
  | zero =>
    intro i res sb h
    have hi : cs.length ≤ i := by omega
    simp only [StringToList.loop, finishScan, List.drop_eq_nil_of_le hi, scan_nil]
    cases sb <;> simp
  | succ fuel ih =>
    intro i res sb h
    by_cases hi : i < cs.length
    · have hd : cs.drop i = cs[i] :: cs.drop (i + 1) := List.drop_eq_getElem_cons hi
      have hg : cs[i]? = some cs[i] := List.getElem?_eq_getElem hi
      by_cases hesc : cs[i]? = some '\\' ∧ i + 1 < cs.length ∧ cs[i + 1]? = some '.'
      · obtain ⟨h0, h1, h2⟩ := hesc
        have hd1 : cs.drop (i + 1) = cs[i + 1] :: cs.drop (i + 2) :=
          List.drop_eq_getElem_cons h1
        have e0 : cs[i] = '\\' := by rw [hg] at h0; exact Option.some.inj h0
        have e1 : cs[i + 1] = '.' := by
          rw [List.getElem?_eq_getElem h1] at h2; exact Option.some.inj h2
        rw [StringToList.loop, if_pos hi, if_pos ⟨h0, h1, h2⟩, hd, hd1, e0, e1, scan_esc]
        exact ih (i + 2) res (sb ++ ['.']) (by omega)
      · by_cases hdot : cs[i]? = some '.'
        · have e0 : cs[i] = '.' := by rw [hg] at hdot; exact Option.some.inj hdot
          rw [StringToList.loop, if_pos hi, if_neg hesc, if_pos hdot, hd, e0, scan_dot]
          rw [ih (i + 1) (res ++ [String.mk sb]) [] (by omega)]
          simp
        · rw [StringToList.loop, if_pos hi, if_neg hesc, if_neg hdot, hd]
          have hne : cs[i] ≠ '.' := by
            intro e; apply hdot; rw [hg, e]
          have hne2 : ¬ (cs[i] = '\\' ∧ (cs.drop (i + 1)).head? = some '.') := by
            rintro ⟨a, b⟩
            apply hesc
            have h1 : i + 1 < cs.length := by
              by_contra hc
              rw [List.drop_eq_nil_of_le (by omega)] at b
              simp at b
            refine ⟨by rw [hg, a], h1, ?_⟩
            rw [List.drop_eq_getElem_cons h1] at b
            simpa [List.getElem?_eq_getElem h1] using b
          rw [scan_other _ _ _ hne hne2, hg]
          exact ih (i + 1) res (sb ++ [cs[i]]) (by omega)
    · have hi2 : cs.length ≤ i := by omega
      rw [StringToList.loop, if_neg hi]
      simp only [finishScan, List.drop_eq_nil_of_le hi2, scan_nil]
      cases sb <;> simp

/-- C3. `StringToList` agrees on every input with the reference left-to-right
scan of the PathSpec parser (backslash-dot is a literal dot, an unescaped dot
closes the current segment even when empty, other characters are copied, a
non-empty trailing buffer is the last segment), and the three documented
examples evaluate as stated. -/
theorem StringToList_eq_scanSegments :
    (∀ s : String, StringToList s = scanSegments s.toList []) ∧
    StringToList "a\\.b.c" = ["a.b", "c"] ∧
    StringToList "" = [] ∧
    StringToList "a..b" = ["a", "", "b"] := by
  refine ⟨?_, by decide, by decide, by decide⟩
  intro s
  unfold StringToList
  by_cases h : s.length = 0
  · have hs : s.toList = [] := List.length_eq_zero.mp h
    rw [if_pos h, hs, scan_nil, if_pos rfl]
  · rw [if_neg h]
    have hfuel : s.toList.length - 0 ≤ s.length := Nat.le_refl _
    have hloop := loop_eq_scan s.toList s.length 0 [] [] hfuel
    rw [List.drop_zero, List.nil_append] at hloop
    exact hloop

/-! ## One step of `GetCheckData` -/

theorem loop_shift (lib : Lib) (L : Int) : ∀ (ks : List String) (i : Nat) (tmp : GoMap)
    (res : String) (exist : Bool),
    GetCheckData.loop lib (L + 1) ks (i + 1) tmp res exist
      = GetCheckData.loop lib L ks i tmp res exist := by
  intro ks
  induction ks with
  | nil => intro i tmp res exist; simp [GetCheckData.loop]
  | cons k ks ih =>
    intro i tmp res exist
    have hc : (Int.ofNat (i + 1) ≠ L + 1) = (Int.ofNat i ≠ L) := by
      apply propext
      simp only [Int.ofNat_eq_coe, ne_eq]
      omega
    simp only [GetCheckData.loop, hc, ih]

theorem loop_next (lib : Lib) (rest : List String) (m : GoMap) (res : String) (exist : Bool) :
    GetCheckData.loop lib (Int.ofNat (rest.length + 1) - 1) rest (0 + 1) m res exist
      = GetCheckData.loop lib (Int.ofNat rest.length - 1) rest 0 m res exist := by
  have h : (Int.ofNat (rest.length + 1) - 1 : Int) = (Int.ofNat rest.length - 1) + 1 := by
    simp only [Int.ofNat_eq_coe]; omega
  rw [h, loop_shift]

theorem first_not_last (rest : List String) (h : rest ≠ []) :
    Int.ofNat 0 ≠ Int.ofNat (rest.length + 1) - 1 := by
  have : 0 < rest.length := List.length_pos.mpr h
  simp only [Int.ofNat_eq_coe, ne_eq]
  omega

theorem GetCheckData_absent (lib : Lib) (root : GoMap) (k : String) (rest : List String)
    (h : mapGet root k = none) : GetCheckData lib root (k :: rest) = ("", false) := by
  simp [GetCheckData, GetCheckData.loop, h]

theorem GetCheckData_nil (lib : Lib) (root : GoMap) (k : String) (rest : List String)
    (h : mapGet root k = some Value.null) : GetCheckData lib root (k :: rest) = ("", false) := by
  simp [GetCheckData, GetCheckData.loop, h, Value.isNil]

theorem GetCheckData_map (lib : Lib) (root m : GoMap) (k : String) (rest : List String)
    (hrest : rest ≠ []) (h : mapGet root k = some (Value.map m)) :
    GetCheckData lib root (k :: rest) = GetCheckData lib m rest := by
  have hne := first_not_last rest hrest
  simp only [GetCheckData, List.length_cons, GetCheckData.loop, h, Value.isNil,
    Bool.false_eq_true, if_false, if_pos hne, loop_next]

theorem GetCheckData_list (lib : Lib) (root : GoMap) (l : List Value) (k : String)
    (rest : List String) (hrest : rest ≠ []) (h : mapGet root k = some (Value.list l)) :
    GetCheckData lib root (k :: rest) = GetCheckData lib (sliceToMap l) rest := by
  have hne := first_not_last rest hrest
  simp only [GetCheckData, List.length_cons, GetCheckData.loop, h, Value.isNil,
    Bool.false_eq_true, if_false, if_pos hne, loop_next]

theorem GetCheckData_str (lib : Lib) (root : GoMap) (s k : String)
    (rest : List String) (hrest : rest ≠ []) (h : mapGet root k = some (Value.str s)) :
    GetCheckData lib root (k :: rest) =
      match (if looksLikeJSON s then (lib.UnmarshalMap s).toOption else none) with
      | some m => GetCheckData lib m rest
      | none =>
        match lib.ParseQuery s with
        | Except.ok q => GetCheckData lib (UrlValueToMap q) rest
        | Except.error _ => ("", false) := by
  have hne := first_not_last rest hrest
  simp only [GetCheckData, List.length_cons, GetCheckData.loop, h, Value.isNil,
    Bool.false_eq_true, if_false, if_pos hne, loop_next]

theorem GetCheckData_last (lib : Lib) (root : GoMap) (k : String) (v : Value)
    (h : mapGet root k = some v) (hv : v.isNil = false) :
    GetCheckData lib root [k] = (AnyToString lib v, true) := by
  have hlast : ¬ (Int.ofNat 0 ≠ Int.ofNat [k].length - 1) := by
    simp
  simp only [GetCheckData, GetCheckData.loop, h, hv, Bool.false_eq_true, if_false,
    if_neg hlast]
  by_cases he : AnyToString lib v = ""
  · rw [if_pos he, he]
  · rw [if_neg he]

theorem GetCheckData_leaf (lib : Lib) (root : GoMap) (k : String) (rest : List String)
    (v : Value) (hrest : rest ≠ []) (h : mapGet root k = some v)
    (hv : (∃ n, v = Value.int n) ∨ (∃ n, v = Value.int64 n) ∨ (∃ f, v = Value.float64 f)
      ∨ (∃ b, v = Value.bool b)) :
    GetCheckData lib root (k :: rest) = ("", false) := by
  have hne := first_not_last rest hrest
  rcases hv with ⟨n, rfl⟩ | ⟨n, rfl⟩ | ⟨f, rfl⟩ | ⟨b, rfl⟩ <;>
    simp only [GetCheckData, List.length_cons, GetCheckData.loop, h, Value.isNil,
      Bool.false_eq_true, if_false, if_pos hne]

theorem looksLikeJSON_iff (s : String) :
    looksLikeJSON s = true ↔
      ((':' ∈ s.toList ∨ '\x7b' ∈ s.toList ∨ '[' ∈ s.toList) ∧ s.utf8ByteSize > 2) := by
  simp [looksLikeJSON, or_assoc]

/-! ## Properties of `GetCheckData` -/

/-- C2. On the root `{"a":""}` with the path `["a"]`, whatever the libraries do,
`GetCheckData` returns the empty string together with `exist = true`: the
branch `if res == ""` returns `exist` unchanged, so an empty-string terminal is
not reported as absent. -/
theorem GetCheckData_empty_terminal_exists :
    ∀ lib : Lib, GetCheckData lib [("a", Value.str "")] ["a"] = ("", true) := by
  intro lib
  exact GetCheckData_last lib [("a", Value.str "")] "a" (Value.str "") rfl rfl

/-- C4. When `root[k]` is a string `s` and the path continues, `GetCheckData`
normalizes `s` in this order: (1) if `s` contains a colon, an opening brace or
an opening bracket, is longer than 2 bytes and decodes as a JSON object `m`,
the result is that of `m` and the rest of the path; (2) otherwise, also when
the decode fails, if `s` parses as a query string `q`, the result is that of
the map binding each key of `q` to its values joined without separator; (3)
otherwise the result is the empty string and `false`. The two documented
examples evaluate to `("42", true)` and `("2", true)`. -/
theorem GetCheckData_string_normalization (lib : Lib) (root : GoMap) (k s : String)
    (rest : List String) (hrest : rest ≠ []) (h : mapGet root k = some (Value.str s)) :
    (∀ m, ((':' ∈ s.toList ∨ '\x7b' ∈ s.toList ∨ '[' ∈ s.toList) ∧ s.utf8ByteSize > 2) →
        lib.UnmarshalMap s = Except.ok m →
        GetCheckData lib root (k :: rest) = GetCheckData lib m rest) ∧
    (∀ q, (¬ ((':' ∈ s.toList ∨ '\x7b' ∈ s.toList ∨ '[' ∈ s.toList) ∧ s.utf8ByteSize > 2)
          ∨ ∃ err, lib.UnmarshalMap s = Except.error err) →
        lib.ParseQuery s = Except.ok q →
        GetCheckData lib root (k :: rest) = GetCheckData lib (UrlValueToMap q) rest ∧
        ∀ key, mapGet (UrlValueToMap q) key =
          (q.lookup key).map (fun vs => Value.str (String.join vs))) ∧
    (∀ err, (¬ ((':' ∈ s.toList ∨ '\x7b' ∈ s.toList ∨ '[' ∈ s.toList) ∧ s.utf8ByteSize > 2)
          ∨ ∃ err', lib.UnmarshalMap s = Except.error err') →
        lib.ParseQuery s = Except.error err →
        GetCheckData lib root (k :: rest) = ("", false)) ∧
    GetCheckData exampleLib [("body", Value.str "\x7b\"user\":\x7b\"id\":42\x7d\x7d")]
      ["body", "user", "id"] = ("42", true) ∧
    GetCheckData exampleLib [("q", Value.str "a=1&b=2")] ["q", "b"] = ("2", true) := by
  have hstep := GetCheckData_str lib root s k rest hrest h
  have hnone : (¬ ((':' ∈ s.toList ∨ '\x7b' ∈ s.toList ∨ '[' ∈ s.toList) ∧ s.utf8ByteSize > 2)
      ∨ ∃ err, lib.UnmarshalMap s = Except.error err) →
      (if looksLikeJSON s then (lib.UnmarshalMap s).toOption else none) = none := by
    intro hc
    rcases hc with hc | ⟨err, hc⟩
    · have : ¬ (looksLikeJSON s = true) := fun hl => hc ((looksLikeJSON_iff s).mp hl)
      rw [if_neg this]
    · rw [hc]
      split <;> rfl
  refine ⟨?_, ?_, ?_, by decide, by decide⟩
  · intro m hl hm
    rw [hstep, if_pos ((looksLikeJSON_iff s).mpr hl), hm]
    rfl
  · intro q hc hq
    refine ⟨?_, mapGet_UrlValueToMap q⟩
    rw [hstep, hnone hc, hq]
  · intro err hc hq
    rw [hstep, hnone hc, hq]

/-- Witness for C4: the query-string case at `{"q":"a=1&a=2"}`, path `["q","a"]`. -/
theorem GetCheckData_string_normalization_witness :
    (["a"] : List String) ≠ [] ∧
    mapGet [("q", Value.str "a=1&a=2")] "q" = some (Value.str "a=1&a=2") ∧
    GetCheckData exampleLib [("q", Value.str "a=1&a=2")] ["q", "a"]
      = GetCheckData exampleLib (UrlValueToMap [("a", ["1", "2"])]) ["a"] ∧
    GetCheckData exampleLib [("q", Value.str "a=1&a=2")] ["q", "a"] = ("12", true) :=
  ⟨by decide, rfl,
    ((GetCheckData_string_normalization exampleLib [("q", Value.str "a=1&a=2")] "q" "a=1&a=2"
      ["a"] (by decide) rfl).2.1 [("a", ["1", "2"])] (Or.inl (by decide)) rfl).1,
    by decide⟩

/-- C5. When `root[k]` is a list `l`, the path `[k, "#_" ++ decimal i]` yields
the string coercion of `l[i]` together with `true` when `i` is in range and
`l[i]` is non-nil with a non-empty coercion, and the empty string with `false`
when `i` is out of range; on `{"items":[10,20,30]}` with `["items","#_1"]` the
result is the coercion of 20 and `true`. -/
theorem GetCheckData_list_index (lib : Lib) (root : GoMap) (k : String) (l : List Value)
    (i : Nat) (h : mapGet root k = some (Value.list l)) :
    (∀ v, l[i]? = some v → v.isNil = false → AnyToString lib v ≠ "" →
        GetCheckData lib root [k, "#_" ++ Nat.repr i] = (AnyToString lib v, true)) ∧
    (l.length ≤ i → GetCheckData lib root [k, "#_" ++ Nat.repr i] = ("", false)) ∧
    GetCheckData exampleLib
      [("items", Value.list [Value.float64 ⟨0x4024000000000000⟩,
        Value.float64 ⟨0x4034000000000000⟩, Value.float64 ⟨0x403E000000000000⟩])]
      ["items", "#_1"]
      = (AnyToString exampleLib (Value.float64 ⟨0x4034000000000000⟩), true) := by
  have hstep : GetCheckData lib root [k, "#_" ++ Nat.repr i]
      = GetCheckData lib (sliceToMap l) [indexKey i] :=
    GetCheckData_list lib root l k [indexKey i] (by simp) h
  refine ⟨?_, ?_, by decide⟩
  · intro v hv hnil _
    rw [hstep]
    exact GetCheckData_last lib (sliceToMap l) (indexKey i) v
      (by rw [mapGet_sliceToMap, hv]) hnil
  · intro hi
    rw [hstep]
    exact GetCheckData_absent lib (sliceToMap l) (indexKey i) []
      (by rw [mapGet_sliceToMap, List.getElem?_eq_none hi])

/-- Witness for C5: index 1 of `{"items":[10,20,30]}`. -/
theorem GetCheckData_list_index_witness :
    mapGet [("items", Value.list [Value.float64 ⟨0x4024000000000000⟩,
        Value.float64 ⟨0x4034000000000000⟩, Value.float64 ⟨0x403E000000000000⟩])] "items"
      = some (Value.list [Value.float64 ⟨0x4024000000000000⟩,
        Value.float64 ⟨0x4034000000000000⟩, Value.float64 ⟨0x403E000000000000⟩]) ∧
    GetCheckData exampleLib
      [("items", Value.list [Value.float64 ⟨0x4024000000000000⟩,
        Value.float64 ⟨0x4034000000000000⟩, Value.float64 ⟨0x403E000000000000⟩])]
      ["items", "#_" ++ Nat.repr 1] = ("20", true) :=
  ⟨rfl,
    (GetCheckData_list_index exampleLib
      [("items", Value.list [Value.float64 ⟨0x4024000000000000⟩,
        Value.float64 ⟨0x4034000000000000⟩, Value.float64 ⟨0x403E000000000000⟩])]
      "items"
      [Value.float64 ⟨0x4024000000000000⟩, Value.float64 ⟨0x4034000000000000⟩,
        Value.float64 ⟨0x403E000000000000⟩]
      1 rfl).1 (Value.float64 ⟨0x4034000000000000⟩) rfl rfl (by decide)⟩

/-- C6. For a non-empty path `k :: rest`: (a) if `k` is absent from the root or
bound to nil, the result is the empty string and `false`; (b) if the path
continues and `root[k]` is a string-keyed mapping `m`, the result is that of
`m` and `rest`; (c) if the path continues and `root[k]` is a number or a
boolean, the result is the empty string and `false`. On `{"a":1}` with
`["a","b"]` the result is the empty string and `false`. -/
theorem GetCheckData_traversal (lib : Lib) (root : GoMap) (k : String) (rest : List String) :
    ((mapGet root k = none ∨ mapGet root k = some Value.null) →
        GetCheckData lib root (k :: rest) = ("", false)) ∧
    (∀ m, rest ≠ [] → mapGet root k = some (Value.map m) →
        GetCheckData lib root (k :: rest) = GetCheckData lib m rest) ∧
    (∀ v, rest ≠ [] → mapGet root k = some v →
        ((∃ n, v = Value.int n) ∨ (∃ n, v = Value.int64 n) ∨ (∃ f, v = Value.float64 f)
          ∨ (∃ b, v = Value.bool b)) →
        GetCheckData lib root (k :: rest) = ("", false)) ∧
    GetCheckData exampleLib [("a", Value.float64 ⟨0x3FF0000000000000⟩)] ["a", "b"]
      = ("", false) := by
  refine ⟨?_, ?_, ?_, by decide⟩
  · intro h
    rcases h with h | h
    · exact GetCheckData_absent lib root k rest h
    · exact GetCheckData_nil lib root k rest h
  · intro m hrest h
    exact GetCheckData_map lib root m k rest hrest h
  · intro v hrest h hv
    exact GetCheckData_leaf lib root k rest v hrest h hv

/-- Witness for C6: a nested mapping is entered, `{"user":{"id":42}}` with
`["user","id"]`. -/
theorem GetCheckData_traversal_witness :
    (["id"] : List String) ≠ [] ∧
    GetCheckData exampleLib [("user", Value.map [("id", Value.float64 ⟨0x4045000000000000⟩)])]
      ["user", "id"]
      = GetCheckData exampleLib [("id", Value.float64 ⟨0x4045000000000000⟩)] ["id"] ∧
    GetCheckData exampleLib [("id", Value.float64 ⟨0x4045000000000000⟩)] ["id"]
      = ("42", true) :=
  ⟨by decide,
    (GetCheckData_traversal exampleLib
      [("user", Value.map [("id", Value.float64 ⟨0x4045000000000000⟩)])] "user" ["id"]).2.1
      [("id", Value.float64 ⟨0x4045000000000000⟩)] (by decide) rfl,
    by decide⟩

/-! ## Properties of `SendMessage` -/

theorem NewKafkaProducer_ok (newClient : List String → Except String Client)
    (brokers : List String) (topic : String) (keyField : List String) (p : KafkaProducer)
    (hp : NewKafkaProducer newClient brokers topic keyField = Except.ok p) :
    p.topic = topic ∧ p.keyFlag = decide (keyField ≠ []) ∧ p.keyField = keyField := by
  unfold NewKafkaProducer at hp
  cases hc : newClient brokers with
  | error err => rw [hc] at hp; cases hp
  | ok client =>
    rw [hc] at hp
    cases keyField with
    | nil =>
      simp only [List.length_nil, gt_iff_lt, Nat.lt_irrefl, if_false] at hp
      cases hp
      simp
    | cons k ks =>
      simp only [List.length_cons, gt_iff_lt, Nat.zero_lt_succ, if_true] at hp
      cases hp
      simp

theorem SendMessage_of_key (lib : Lib) (p : KafkaProducer) (msg : String)
    (sent : List Record) (key : Option String)
    (h : SendMessage.key lib p msg = Except.ok key) :
    (SendMessage lib p msg sent).2 = sent ++ [⟨p.topic, key, msg⟩] := by
  unfold SendMessage
  rw [h]
  simp only
  cases p.client ⟨p.topic, key, msg⟩ <;> rfl

theorem GetCheckData_empty_map (lib : Lib) (checkKeyList : List String) :
    GetCheckData lib [] checkKeyList = ("", false) := by
  cases checkKeyList with
  | nil => simp [GetCheckData, GetCheckData.loop]
  | cons k rest => exact GetCheckData_absent lib [] k rest rfl

/-- C1 (as amended). For a producer with a key path configured: when decoding
the payload into a map returns an error, `SendMessage` returns the error
"failed to parse message for key: ..." wrapping the decode error and hands no
record to the client; when the decode returns no error and leaves the map
empty (the JSON value `null`), `SendMessage` hands the client exactly one
record with no key and the payload as value, and returns an error only if the
client reports one. -/
theorem SendMessage_on_non_object_payload (lib : Lib) (p : KafkaProducer) (msg : String)
    (sent : List Record) (hflag : p.keyFlag = true) :
    (∀ err, lib.UnmarshalMap msg = Except.error err →
      SendMessage lib p msg sent
        = (some ("failed to parse message for key: " ++ err), sent)) ∧
    (lib.UnmarshalMap msg = Except.ok [] →
      SendMessage lib p msg sent
        = ((p.client ⟨p.topic, none, msg⟩).map (fun err => "failed to produce message: " ++ err),
            sent ++ [⟨p.topic, none, msg⟩])) := by
  constructor
  · intro err hparse
    simp [SendMessage, SendMessage.key, hflag, hparse]
  · intro hparse
    have hkey : SendMessage.key lib p msg = Except.ok none := by
      simp [SendMessage.key, hflag, hparse, GetCheckData_empty_map]
    unfold SendMessage
    rw [hkey]
    simp only
    cases p.client ⟨p.topic, none, msg⟩ <;> rfl

/-- Witness for C1 (as amended): on a producer keyed by `["id"]`, the payload
`[1,2]` is refused with an error and the payload `null` is sent unkeyed. -/
theorem SendMessage_on_non_object_payload_witness :
    exampleProducer.keyFlag = true ∧
    exampleLib.UnmarshalMap "[1,2]" = Except.error "value is not a JSON object" ∧
    SendMessage exampleLib exampleProducer "[1,2]" []
      = (some ("failed to parse message for key: " ++ "value is not a JSON object"), []) ∧
    exampleLib.UnmarshalMap "null" = Except.ok [] ∧
    handleWebhook exampleLib "POST" (Except.ok "null") [] = (200, ["null"]) ∧
    SendMessage exampleLib exampleProducer "null" [] = (none, [⟨"events", none, "null"⟩]) :=
  ⟨rfl, rfl,
    (SendMessage_on_non_object_payload exampleLib exampleProducer "[1,2]" [] rfl).1
      "value is not a JSON object" rfl,
    rfl, by decide,
    (SendMessage_on_non_object_payload exampleLib exampleProducer "null" [] rfl).2 rfl⟩

/-- C1 (as stated) fails: the webhook listener accepts the JSON array `[1,2]`
and enqueues it, and `SendMessage` on a producer keyed by `["id"]` then returns
an error without handing any record to the client. -/
theorem SendMessage_unparseable_not_forwarded :
    handleWebhook exampleLib "POST" (Except.ok "[1,2]") [] = (200, ["[1,2]"]) ∧
    exampleProducer.keyFlag = true ∧
    (exampleLib.UnmarshalMap "[1,2]").toBool = false ∧
    (SendMessage exampleLib exampleProducer "[1,2]" []).2 = [] ∧
    (SendMessage exampleLib exampleProducer "[1,2]" []).2
      ≠ [⟨exampleProducer.topic, none, "[1,2]"⟩] ∧
    (SendMessage exampleLib exampleProducer "[1,2]" []).1
      = some "failed to parse message for key: value is not a JSON object" :=
  ⟨by decide, rfl, rfl, by decide, by decide, by decide⟩

/-- C7. For a producer built by `NewKafkaProducer` and a payload that is sent
with no key path configured or decodes as a JSON object, `SendMessage` hands
the client exactly one more record, with the configured topic and the payload
as value; its key is absent when no key path is configured or `GetCheckData`
reports `false`, and is the extracted string when it reports `true`. -/
theorem SendMessage_hands_one_record (lib : Lib)
    (newClient : List String → Except String Client) (brokers : List String)
    (topic : String) (keyField : List String) (p : KafkaProducer) (msg : String)
    (sent : List Record)
    (hp : NewKafkaProducer newClient brokers topic keyField = Except.ok p)
    (hmsg : keyField = [] ∨ ∃ data, lib.UnmarshalMap msg = Except.ok data) :
    ∃ key, (SendMessage lib p msg sent).2 = sent ++ [⟨topic, key, msg⟩] ∧
      (keyField = [] → key = none) ∧
      (∀ data, keyField ≠ [] → lib.UnmarshalMap msg = Except.ok data →
        ((GetCheckData lib data keyField).2 = false → key = none) ∧
        ((GetCheckData lib data keyField).2 = true →
          key = some (GetCheckData lib data keyField).1)) := by
  obtain ⟨htopic, hflag, hfield⟩ := NewKafkaProducer_ok newClient brokers topic keyField p hp
  by_cases hk : keyField = []
  · have hf : p.keyFlag = false := by rw [hflag]; simp [hk]
    have hkey : SendMessage.key lib p msg = Except.ok none := by
      simp [SendMessage.key, hf]
    refine ⟨none, ?_, fun _ => rfl, fun data hne => absurd hk hne⟩
    rw [SendMessage_of_key lib p msg sent none hkey, htopic]
  · have hf : p.keyFlag = true := by rw [hflag]; simp [hk]
    rcases hmsg with hm | ⟨data, hdata⟩
    · exact absurd hm hk
    · cases hr : (GetCheckData lib data keyField).2 with
      | false =>
        have hkey : SendMessage.key lib p msg = Except.ok none := by
          simp [SendMessage.key, hf, hdata, hfield, hr]
        refine ⟨none, ?_, fun _ => rfl, ?_⟩
        · rw [SendMessage_of_key lib p msg sent none hkey, htopic]
        · intro data' _ hdata'
          have hd : data' = data := by
            rw [hdata] at hdata'; cases hdata'; rfl
          subst hd
          exact ⟨fun _ => rfl, fun ht => (by rw [hr] at ht; cases ht)⟩
      | true =>
        have hkey : SendMessage.key lib p msg
            = Except.ok (some (GetCheckData lib data keyField).1) := by
          simp [SendMessage.key, hf, hdata, hfield, hr]
        refine ⟨some (GetCheckData lib data keyField).1, ?_, fun h => absurd h hk, ?_⟩
        · rw [SendMessage_of_key lib p msg sent _ hkey, htopic]
        · intro data' _ hdata'
          have hd : data' = data := by
            rw [hdata] at hdata'; cases hdata'; rfl
          subst hd
          exact ⟨fun hf' => (by rw [hr] at hf'; cases hf'), fun _ => rfl⟩

/-- Witness for C7: the payload `{"id":42}` on a producer keyed by `["id"]`. -/
theorem SendMessage_hands_one_record_witness :
    NewKafkaProducer (fun _ => Except.ok (fun _ => none)) ["broker1:9092"] "events" ["id"]
      = Except.ok exampleProducer ∧
    (∃ key, (SendMessage exampleLib exampleProducer "\x7b\"id\":42\x7d" []).2
        = [] ++ [⟨"events", key, "\x7b\"id\":42\x7d"⟩] ∧
      ((["id"] : List String) = [] → key = none) ∧
      (∀ data, (["id"] : List String) ≠ [] →
        exampleLib.UnmarshalMap "\x7b\"id\":42\x7d" = Except.ok data →
        ((GetCheckData exampleLib data ["id"]).2 = false → key = none) ∧
        ((GetCheckData exampleLib data ["id"]).2 = true →
          key = some (GetCheckData exampleLib data ["id"]).1))) ∧
    SendMessage exampleLib exampleProducer "\x7b\"id\":42\x7d" []
      = (none, [⟨"events", some "42", "\x7b\"id\":42\x7d"⟩]) :=
  ⟨rfl,
    SendMessage_hands_one_record exampleLib (fun _ => Except.ok (fun _ => none))
      ["broker1:9092"] "events" ["id"] exampleProducer "\x7b\"id\":42\x7d" [] rfl
      (Or.inr ⟨[("id", Value.float64 ⟨0x4045000000000000⟩)], rfl⟩),
    by decide⟩

/-! ## Configuration validation and the channel table -/

theorem main_found_true (kafkaID : String) (ks : List main.KafkaConfig)
    (h : main.validateConfig.found kafkaID ks = true) : ∃ k ∈ ks, k.ID = kafkaID := by
  induction ks with
  | nil => simp [main.validateConfig.found] at h
  | cons k ks ih =>
    by_cases hk : k.ID = kafkaID
    · exact ⟨k, List.mem_cons_self k ks, hk⟩
    · simp only [main.validateConfig.found, if_neg hk] at h
      obtain ⟨k', hmem, hid⟩ := ih h
      exact ⟨k', List.mem_cons_of_mem k hmem, hid⟩

theorem main_syslog_ok (kafka : List main.KafkaConfig) (ss : List main.SyslogServerConfig) :
    ∀ i, main.validateConfig.syslog kafka i ss = none →
      ∀ s ∈ ss, s.KafkaID ≠ "" ∧ main.validateConfig.found s.KafkaID kafka = true := by
  induction ss with
  | nil => intro i _ s hs; cases hs
  | cons s0 ss ih =>
    intro i h s hs
    simp only [main.validateConfig.syslog] at h
    split_ifs at h with h1 h2 h3 h4 h5
    rcases List.mem_cons.mp hs with rfl | hmem
    · exact ⟨h4, by simpa using h5⟩
    · exact ih (i + 1) h s hmem

theorem main_webhook_ok (kafka : List main.KafkaConfig) (ws : List main.WebhookConfig) :
    ∀ i, main.validateConfig.webhook kafka i ws = none →
      ∀ w ∈ ws, w.KafkaID ≠ "" ∧ main.validateConfig.found w.KafkaID kafka = true := by
  induction ws with
  | nil => intro i _ w hw; cases hw
  | cons w0 ws ih =>
    intro i h w hw
    simp only [main.validateConfig.webhook] at h
    split_ifs at h with h1 h2 h3 h4 h5 h6
    rcases List.mem_cons.mp hw with rfl | hmem
    · exact ⟨h3, by simpa using h4⟩
    · exact ih (i + 1) h w hmem

theorem main_validateConfig_ok (config : main.Config)
    (h : main.validateConfig config = none) :
    main.validateConfig.syslog config.Kafka 0 config.Syslog = none ∧
    main.validateConfig.webhook config.Kafka 0 config.Webhook = none := by
  unfold main.validateConfig at h
  by_cases h1 : config.Kafka.length = 0
  · rw [if_pos h1] at h; cases h
  rw [if_neg h1] at h
  cases hk : main.validateConfig.kafka 0 config.Kafka with
  | some err => rw [hk] at h; cases h
  | none =>
    rw [hk] at h
    by_cases h2 : config.Syslog.length = 0
    · simp only [if_pos h2] at h; cases h
    simp only [if_neg h2] at h
    cases hs : main.validateConfig.syslog config.Kafka 0 config.Syslog with
    | some err => rw [hs] at h; cases h
    | none =>
      rw [hs] at h
      by_cases h3 : config.Webhook.length = 0
      · simp only [if_pos h3] at h; cases h
      simp only [if_neg h3] at h
      exact ⟨rfl, h⟩

theorem lookup_makeChans_not_found (kafkaID : String) (ks : List main.KafkaConfig) :
    ∀ (n : Nat) (m : List (String × main.Chan)),
      main.validateConfig.found kafkaID ks = false →
      (main.makeChans ks n m).lookup kafkaID = m.lookup kafkaID := by
  induction ks with
  | nil => intro n m _; rfl
  | cons k ks ih =>
    intro n m h
    by_cases hk : k.ID = kafkaID
    · simp [main.validateConfig.found, hk] at h
    · simp only [main.validateConfig.found, if_neg hk] at h
      rw [main.makeChans, ih (n + 1) _ h]
      have hb : (kafkaID == k.ID) = false := by
        simp only [beq_eq_false_iff_ne, ne_eq]
        exact fun e => hk e.symm
      simp only [List.lookup, hb]

theorem lookup_makeChans_found (kafkaID : String) (ks : List main.KafkaConfig) :
    ∀ (n : Nat) (m : List (String × main.Chan)),
      main.validateConfig.found kafkaID ks = true →
      ∃ ch : Nat, (main.makeChans ks n m).lookup kafkaID = some ch ∧ n ≤ ch ∧
        ∃ kc, ks[ch - n]? = some kc ∧ kc.ID = kafkaID := by
  induction ks with
  | nil => intro n m h; simp [main.validateConfig.found] at h
  | cons k ks ih =>
    intro n m h
    cases ht : main.validateConfig.found kafkaID ks with
    | true =>
      obtain ⟨ch, hl, hn, kc, hget, hid⟩ := ih (n + 1) ((k.ID, n) :: m) ht
      refine ⟨ch, hl, by omega, kc, ?_, hid⟩
      have e : ch - n = (ch - (n + 1)) + 1 := by omega
      rw [e, List.getElem?_cons_succ]
      exact hget
    | false =>
      have hk : k.ID = kafkaID := by
        by_contra hk
        simp only [main.validateConfig.found, if_neg hk] at h
        rw [ht] at h
        cases h
      refine ⟨n, ?_, Nat.le_refl n, k, by simp, hk⟩
      rw [main.makeChans, lookup_makeChans_not_found kafkaID ks (n + 1) _ ht]
      simp [List.lookup, hk]

theorem common_found_true (kafkaID : String) (ks : List common.KafkaConfig)
    (h : Config.Validate.found kafkaID ks = true) : ∃ k ∈ ks, k.ID = kafkaID := by
  induction ks with
  | nil => simp [Config.Validate.found] at h
  | cons k ks ih =>
    by_cases hk : k.ID = kafkaID
    · exact ⟨k, List.mem_cons_self k ks, hk⟩
    · simp only [Config.Validate.found, if_neg hk] at h
      obtain ⟨k', hmem, hid⟩ := ih h
      exact ⟨k', List.mem_cons_of_mem k hmem, hid⟩

theorem common_syslog_ok (kafka : List common.KafkaConfig)
    (ss : List common.SyslogServerConfig) :
    ∀ i, Config.Validate.syslog kafka i ss = none →
      ∀ s ∈ ss, s.KafkaID ≠ "" ∧ Config.Validate.found s.KafkaID kafka = true := by
  induction ss with
  | nil => intro i _ s hs; cases hs
  | cons s0 ss ih =>
    intro i h s hs
    simp only [Config.Validate.syslog] at h
    split_ifs at h with h1 h2 h3 h4 h5
    rcases List.mem_cons.mp hs with rfl | hmem
    · exact ⟨h4, by simpa using h5⟩
    · exact ih (i + 1) h s hmem

theorem common_webhook_ok (kafka : List common.KafkaConfig) (ws : List common.WebhookConfig) :
    ∀ i, Config.Validate.webhook kafka i ws = none →
      ∀ w ∈ ws, w.KafkaID ≠ "" ∧ Config.Validate.found w.KafkaID kafka = true := by
  induction ws with
  | nil => intro i _ w hw; cases hw
  | cons w0 ws ih =>
    intro i h w hw
    simp only [Config.Validate.webhook] at h
    split_ifs at h with h1 h2 h3 h4 h5 h6
    rcases List.mem_cons.mp hw with rfl | hmem
    · exact ⟨h3, by simpa using h4⟩
    · exact ih (i + 1) h w hmem

theorem common_Validate_ok (c : common.Config) (h : c.Validate = none) :
    Config.Validate.syslog c.Kafka 0 c.Syslog = none ∧
    Config.Validate.webhook c.Kafka 0 c.Webhook = none := by
  unfold Config.Validate at h
  by_cases h1 : c.Kafka.length = 0
  · rw [if_pos h1] at h; cases h
  rw [if_neg h1] at h
  cases hk : Config.Validate.kafka 0 c.Kafka with
  | some err => rw [hk] at h; cases h
  | none =>
    rw [hk] at h
    by_cases h2 : c.Syslog.length = 0
    · simp only [if_pos h2] at h; cases h
    simp only [if_neg h2] at h
    cases hs : Config.Validate.syslog c.Kafka 0 c.Syslog with
    | some err => rw [hs] at h; cases h
    | none =>
      rw [hs] at h
      by_cases h3 : c.Webhook.length = 0
      · simp only [if_pos h3] at h; cases h
      simp only [if_neg h3] at h
      exact ⟨rfl, h⟩

/-- C8. If `validateConfig` returns nil, every syslog and every webhook
listener has a non-empty `kafka_id` equal to the id of some entry of the kafka
list, and the read `msgChans[KafkaID]` that `main` performs for the listener
finds a channel that was made for a kafka entry with that id; the same
guarantee about the ids holds when `Config.Validate` returns nil. -/
theorem validateConfig_binds_listeners :
    (∀ config : main.Config, main.validateConfig config = none →
      (∀ s ∈ config.Syslog, s.KafkaID ≠ "" ∧ (∃ k ∈ config.Kafka, k.ID = s.KafkaID) ∧
        ∃ ch : Nat, (main.makeChans config.Kafka 0 []).lookup s.KafkaID = some ch ∧
          ∃ kc, config.Kafka[ch]? = some kc ∧ kc.ID = s.KafkaID) ∧
      (∀ w ∈ config.Webhook, w.KafkaID ≠ "" ∧ (∃ k ∈ config.Kafka, k.ID = w.KafkaID) ∧
        ∃ ch : Nat, (main.makeChans config.Kafka 0 []).lookup w.KafkaID = some ch ∧
          ∃ kc, config.Kafka[ch]? = some kc ∧ kc.ID = w.KafkaID)) ∧
    (∀ c : common.Config, c.Validate = none →
      (∀ s ∈ c.Syslog, s.KafkaID ≠ "" ∧ ∃ k ∈ c.Kafka, k.ID = s.KafkaID) ∧
      (∀ w ∈ c.Webhook, w.KafkaID ≠ "" ∧ ∃ k ∈ c.Kafka, k.ID = w.KafkaID)) := by
  constructor
  · intro config h
    obtain ⟨hs, hw⟩ := main_validateConfig_ok config h
    constructor
    · intro s hmem
      obtain ⟨hne, hfound⟩ := main_syslog_ok config.Kafka config.Syslog 0 hs s hmem
      obtain ⟨ch, hl, _, kc, hget, hid⟩ :=
        lookup_makeChans_found s.KafkaID config.Kafka 0 [] hfound
      exact ⟨hne, main_found_true _ _ hfound, ch, hl, kc, by simpa using hget, hid⟩
    · intro w hmem
      obtain ⟨hne, hfound⟩ := main_webhook_ok config.Kafka config.Webhook 0 hw w hmem
      obtain ⟨ch, hl, _, kc, hget, hid⟩ :=
        lookup_makeChans_found w.KafkaID config.Kafka 0 [] hfound
      exact ⟨hne, main_found_true _ _ hfound, ch, hl, kc, by simpa using hget, hid⟩
  · intro c h
    obtain ⟨hs, hw⟩ := common_Validate_ok c h
    constructor
    · intro s hmem
      obtain ⟨hne, hfound⟩ := common_syslog_ok c.Kafka c.Syslog 0 hs s hmem
      exact ⟨hne, common_found_true _ _ hfound⟩
    · intro w hmem
      obtain ⟨hne, hfound⟩ := common_webhook_ok c.Kafka c.Webhook 0 hw w hmem
      exact ⟨hne, common_found_true _ _ hfound⟩

/-- Witness for C8: both example configurations are accepted, and the guarantee
holds for their listeners. -/
theorem validateConfig_binds_listeners_witness :
    main.validateConfig main.exampleConfig = none ∧
    common.exampleConfig.Validate = none ∧
    (∀ s ∈ main.exampleConfig.Syslog, s.KafkaID ≠ "" ∧
      (∃ k ∈ main.exampleConfig.Kafka, k.ID = s.KafkaID) ∧
      ∃ ch : Nat, (main.makeChans main.exampleConfig.Kafka 0 []).lookup s.KafkaID = some ch ∧
        ∃ kc, main.exampleConfig.Kafka[ch]? = some kc ∧ kc.ID = s.KafkaID) ∧
    (∀ w ∈ common.exampleConfig.Webhook, w.KafkaID ≠ "" ∧
      ∃ k ∈ common.exampleConfig.Kafka, k.ID = w.KafkaID) :=
  ⟨by decide, by decide,
    (validateConfig_binds_listeners.1 main.exampleConfig (by decide)).1,
    (validateConfig_binds_listeners.2 common.exampleConfig (by decide)).2⟩

/-! ## The consumer goroutine -/

theorem SendMessage_error_indep (lib : Lib) (p : KafkaProducer) (msg : String)
    (sent : List Record) : (SendMessage lib p msg sent).1 = (SendMessage lib p msg []).1 := by
  unfold SendMessage
  cases SendMessage.key lib p msg with
  | error err => rfl
  | ok key =>
    simp only
    cases p.client ⟨p.topic, key, msg⟩ <;> rfl

/-- C9. For every finite sequence of payloads taken from one destination's
channel in FIFO order, the consumer loop calls `SendMessage` exactly once per
payload and in that order, each call starting from the state the previous call
left; an error returned for a payload adds one line to the output and changes
nothing in the calls made for the payloads after it. -/
theorem consumer_calls_in_order (lib : Lib) (p : KafkaProducer) (kafkaID : String)
    (payloads : List String) (st : main.ConsumerState) :
    (main.consumer lib p kafkaID payloads st).calls = st.calls ++ payloads ∧
    (main.consumer lib p kafkaID payloads st).sent
      = payloads.foldl (fun sent msg => (SendMessage lib p msg sent).2) st.sent ∧
    (main.consumer lib p kafkaID payloads st).stdout
      = st.stdout ++ payloads.filterMap (fun msg =>
          (SendMessage lib p msg []).1.map (fun err =>
            "Error sending message to Kafka " ++ kafkaID ++ ": " ++ err ++ "\n")) := by
  induction payloads generalizing st with
  | nil => simp [main.consumer]
  | cons msg rest ih =>
    have herr := SendMessage_error_indep lib p msg st.sent
    rcases hsend : SendMessage lib p msg st.sent with ⟨e, sent⟩
    rw [hsend] at herr
    simp only at herr
    cases e with
    | none =>
      simp only [main.consumer, hsend]
      obtain ⟨h1, h2, h3⟩ := ih ⟨st.calls ++ [msg], sent, st.stdout⟩
      refine ⟨?_, ?_, ?_⟩
      · rw [h1]; simp
      · rw [h2]; simp [hsend]
      · rw [h3]; simp [← herr]
    | some err =>
      simp only [main.consumer, hsend]
      obtain ⟨h1, h2, h3⟩ := ih ⟨st.calls ++ [msg], sent,
        st.stdout ++ ["Error sending message to Kafka " ++ kafkaID ++ ": " ++ err ++ "\n"]⟩
      refine ⟨?_, ?_, ?_⟩
      · rw [h1]; simp
      · rw [h2]; simp [hsend]
      · rw [h3]; simp [← herr]

/-! ## One consumer per destination queue -/

/-- C10. The configuration `duplicateIdConfig`, whose two kafka entries carry
the id `a`, is accepted by `validateConfig`; the destination setup of `main`
then stores channel 1 under `a` and starts two consumer goroutines that both
read channel 1. -/
theorem destinationSetup_duplicate_id_two_consumers :
    main.validateConfig main.duplicateIdConfig = none ∧
    (main.makeChans main.duplicateIdConfig.Kafka 0 []).lookup "a" = some 1 ∧
    (main.destinationSetup (fun _ => Except.ok (fun _ => none))
        main.duplicateIdConfig).toOption.map (fun d => d.consumers)
      = some [⟨"a", some 1⟩, ⟨"a", some 1⟩] := by
  refine ⟨by decide, by decide, by decide⟩

/-! ## Payloads built by `SyslogConfig.Run` -/

theorem scanSegments_eq_nil : ∀ (n : Nat) (cs buf : List Char), cs.length ≤ n →
    scanSegments cs buf = [] → cs = [] ∧ buf = [] := by
  intro n
  induction n with
  | zero =>
    intro cs buf hlen h
    have hcs : cs = [] := List.length_eq_zero.mp (Nat.le_zero.mp hlen)
    subst hcs
    rw [scan_nil] at h
    by_cases hb : buf = []
    · exact ⟨rfl, hb⟩
    · rw [if_neg hb] at h; cases h
  | succ n ih =>
    intro cs buf hlen h
    cases cs with
    | nil =>
      rw [scan_nil] at h
      by_cases hb : buf = []
      · exact ⟨rfl, hb⟩
      · rw [if_neg hb] at h; cases h
    | cons c rest =>
      exfalso
      have hrest : rest.length ≤ n := by
        simp only [List.length_cons] at hlen; omega
      by_cases hdot : c = '.'
      · subst hdot
        rw [scan_dot] at h
        cases h
      · by_cases hesc : c = '\\' ∧ rest.head? = some '.'
        · obtain ⟨hc, hh⟩ := hesc
          subst hc
          cases rest with
          | nil => simp at hh
          | cons d rest' =>
            have hd : d = '.' := by simpa using hh
            subst hd
            rw [scan_esc] at h
            have hlen' : rest'.length ≤ n := by
              simp only [List.length_cons] at hrest; omega
            have := (ih rest' (buf ++ ['.']) hlen' h).2
            simp at this
        · rw [scan_other c rest buf hdot hesc] at h
          have := (ih rest (buf ++ [c]) hrest h).2
          simp at this

theorem StringToList_scan (s : String) : StringToList s = scanSegments s.toList [] := by
  unfold StringToList
  by_cases h : s.length = 0
  · have hs : s.toList = [] := List.length_eq_zero.mp h
    rw [if_pos h, hs, scan_nil, if_pos rfl]
  · rw [if_neg h]
    have hfuel : s.toList.length - 0 ≤ s.length := Nat.le_refl _
    have hloop := loop_eq_scan s.toList s.length 0 [] [] hfuel
    rw [List.drop_zero, List.nil_append] at hloop
    exact hloop

theorem StringToList_eq_nil_iff (s : String) : StringToList s = [] ↔ s = "" := by
  constructor
  · intro h
    rw [StringToList_scan] at h
    have hcs := (scanSegments_eq_nil s.toList.length s.toList [] (Nat.le_refl _) h).1
    exact String.ext hcs
  · intro h
    subst h
    decide

theorem startProducers_inv (newClient : List String → Except String Client)
    (msgChans : List (String × main.Chan)) :
    ∀ (ks : List main.KafkaConfig)
      (st st' : List (String × KafkaProducer) × List main.Consumer),
      main.startProducers newClient msgChans ks st = Except.ok st' →
      ∀ e ∈ st'.1, e ∈ st.1 ∨ ∃ kc ∈ ks, kc.ID = e.1 ∧
        NewKafkaProducer newClient kc.Brokers kc.Topic
          (if kc.Key ≠ "" then StringToList kc.Key else []) = Except.ok e.2 := by
  intro ks
  induction ks with
  | nil =>
    intro st st' h e he
    simp only [main.startProducers] at h
    cases h
    exact Or.inl he
  | cons kc ks ih =>
    intro st st' h e he
    simp only [main.startProducers] at h
    cases hp : NewKafkaProducer newClient kc.Brokers kc.Topic
        (if kc.Key ≠ "" then StringToList kc.Key else []) with
    | error err => rw [hp] at h; cases h
    | ok producer =>
      rw [hp] at h
      rcases ih _ st' h e he with hmem | ⟨kc', hkc', hid, hnew⟩
      · rcases List.mem_cons.mp hmem with rfl | hmem'
        · exact Or.inr ⟨kc, List.mem_cons_self kc ks, rfl, hp⟩
        · exact Or.inl hmem'
      · exact Or.inr ⟨kc', List.mem_cons_of_mem kc hkc', hid, hnew⟩

/-- C12. `StringToList s` is the empty sequence exactly when `s` is the empty
string; hence every producer that the destination setup of `main` stores was
built for a kafka entry of the same id, has `keyFlag = true` when that entry's
key string is non-empty and `keyFlag = false` when it is empty, and has a
non-empty key path whenever `keyFlag` is true, so that `SendMessage` never
passes an empty path to `GetCheckData`. -/
theorem StringToList_empty_iff_keyFlag :
    (∀ s : String, StringToList s = [] ↔ s = "") ∧
    (∀ (newClient : List String → Except String Client) (config : main.Config)
        (d : main.Destinations),
      main.destinationSetup newClient config = Except.ok d →
      ∀ e ∈ d.kafkaProducers, ∃ kc ∈ config.Kafka, kc.ID = e.1 ∧
        (kc.Key ≠ "" → e.2.keyFlag = true) ∧
        (kc.Key = "" → e.2.keyFlag = false) ∧
        (e.2.keyFlag = true → e.2.keyField ≠ [])) := by
  refine ⟨StringToList_eq_nil_iff, ?_⟩
  intro newClient config d h e he
  unfold main.destinationSetup at h
  cases hs : main.startProducers newClient (main.makeChans config.Kafka 0 []) config.Kafka
      ([], []) with
  | error err => simp only [hs] at h; cases h
  | ok st =>
    simp only [hs] at h
    cases h
    rcases startProducers_inv newClient _ config.Kafka ([], []) st hs e he with
      hmem | ⟨kc, hkc, hid, hnew⟩
    · cases hmem
    · obtain ⟨_, hflag, hfield⟩ := NewKafkaProducer_ok newClient kc.Brokers kc.Topic _ e.2 hnew
      refine ⟨kc, hkc, hid, ?_, ?_, ?_⟩
      · intro hkey
        rw [hflag, if_pos hkey]
        have : StringToList kc.Key ≠ [] := fun hc => hkey ((StringToList_eq_nil_iff _).mp hc)
        simpa using this
      · intro hkey
        rw [hflag]
        simp [hkey]
      · intro ht
        rw [hfield]
        rw [hflag] at ht
        simpa using ht

/-- Witness for C12: the setup of `exampleConfig`, whose kafka entry has the key
string `user.id`. -/
theorem StringToList_empty_iff_keyFlag_witness :
    main.destinationSetup (fun _ => Except.ok (fun _ => none)) main.exampleConfig
      = Except.ok ⟨[("a", 0)], [("a", ⟨fun _ => none, "t1", ["user", "id"], true⟩)],
          [⟨"a", some 0⟩]⟩ ∧
    ∃ kc ∈ main.exampleConfig.Kafka, kc.ID = "a" ∧
      (kc.Key ≠ "" → true = true) ∧ (kc.Key = "" → true = false) ∧
      (true = true → (["user", "id"] : List String) ≠ []) :=
  ⟨rfl,
    StringToList_empty_iff_keyFlag.2 (fun _ => Except.ok (fun _ => none)) main.exampleConfig
      ⟨[("a", 0)], [("a", ⟨fun _ => none, "t1", ["user", "id"], true⟩)], [⟨"a", some 0⟩]⟩
      rfl ("a", ⟨fun _ => none, "t1", ["user", "id"], true⟩) (List.mem_singleton.mpr rfl)⟩

/-! ## Records with the same field names -/

